import Mathlib

/-!
Shallow embedding of the tacnet-odenwachan watcher core: the MikoPBX polling
client's retry/backoff policy (`nextBackoff`, `jitter`, `GetPeersStatuses`,
`GetRegistry`) and the stateful diff-and-notify engine of the `watcher`
package (`diffAndNotifyPeers`, `diffAndNotifyProviders`, `checkOnce`).

Modelling conventions:
  - Go `map[string]string` snapshots become association lists
    (`Snapshot := List (String × String)`); `cur[p.ID] = p.State` insertion
    (last write wins) is `insertEntry` / `buildSnapshot`, which always
    produces lists with pairwise distinct keys.
  - `time.Duration` values are natural numbers of nanoseconds.
  - `rand.Intn n` is modelled by an oracle argument `r : Nat` reduced mod `n`.
  - The Discord `Notifier` collaborator is modelled by a Boolean
    `hasNotifier` (`w.Notifier != nil`) and a Boolean `notifyFails` carrying
    the result of `Notify` / `NotifyEmbed`; the Go code discards that result
    (`_ = en.NotifyEmbed(...)`), so the embedding ignores `notifyFails`.
  - `resolvePeerLabel` performs network lookups and caching; its result is
    abstracted as an oracle `labelOf : String → String` since no claim
    depends on the label text.
  - The formatted change strings (`fmt.Sprintf("端末 %s: %s → %s", ...)`) are
    rendered by `renderPeerEvent` / `renderProviderEvent` from the structured
    `TransitionEvent` records; one appended string in Go corresponds to one
    record here, in the same loop order.
-/

namespace Tacnet

/-- time.Second in nanoseconds. -/
def second : Nat := 1000000000

/-- time.Millisecond in nanoseconds. -/
def millisecond : Nat := 1000000

/-- strings.EqualFold as used on the raw state vocabulary: case-insensitive
equality, modelled as equality of the lowercased character sequences. -/
def eqFold (a b : String) : Bool :=
  a.data.map Char.toLower == b.data.map Char.toLower

/-- isPeerOnline from watcher: treat "OK" as online; others offline. -/
def isPeerOnline (state : String) : Bool :=
  eqFold state "OK"

/-- isProviderOnline from watcher: provider registry state "OK" is online. -/
def isProviderOnline (state : String) : Bool :=
  eqFold state "OK"

/-- One entity snapshot: identifier to raw state, as an association list. -/
abbrev Snapshot := List (String × String)

/-- Go map read m[id]: first matching key (keys are pairwise distinct in any
snapshot built by `buildSnapshot`). -/
def snapLookup (m : Snapshot) (id : String) : Option String :=
  match m with
  | [] => none
  | (k, v) :: rest => if k == id then some v else snapLookup rest id

/-- Go map write m[k] = v: replace an existing binding or append a new one. -/
def insertEntry (m : Snapshot) (k v : String) : Snapshot :=
  if m.any (fun q => q.1 == k) then
    m.map (fun q => if q.1 == k then (k, v) else q)
  else
    m ++ [(k, v)]

/-- Builds the current snapshot from the fetched response data, mirroring the
loop `for _, p := range peers.Data { cur[p.ID] = p.State }`. -/
def buildSnapshot (data : List (String × String)) : Snapshot :=
  data.foldl (fun m q => insertEntry m q.1 q.2) []

/-- One online/offline transition for one entity, the structured content of
one appended change line. -/
structure TransitionEvent where
  id : String
  fromOnline : Bool
  toOnline : Bool
deriving DecidableEq, Repr

/-- An event whose transition is offline to online. -/
def isUpEvent (e : TransitionEvent) : Bool :=
  !e.fromOnline && e.toOnline

/-- An event whose transition is online to offline. -/
def isDownEvent (e : TransitionEvent) : Bool :=
  e.fromOnline && !e.toOnline

/-- First loop of the diff: for every id in the current snapshot, compare
with the previous snapshot (absent before means offline before). -/
def diffCurrent (isOnline : String → Bool) (prev : Snapshot) :
    Snapshot → List TransitionEvent
  | [] => []
  | (id, state) :: rest =>
    match snapLookup prev id with
    | none =>
      if isOnline state then
        ⟨id, false, true⟩ :: diffCurrent isOnline prev rest
      else
        diffCurrent isOnline prev rest
    | some p =>
      if isOnline p != isOnline state then
        ⟨id, isOnline p, isOnline state⟩ :: diffCurrent isOnline prev rest
      else
        diffCurrent isOnline prev rest

/-- Second loop of the diff: ids present before and absent now are treated as
going offline, reported only if they were online. -/
def diffGone (isOnline : String → Bool) (cur : Snapshot) :
    Snapshot → List TransitionEvent
  | [] => []
  | (id, p) :: rest =>
    match snapLookup cur id with
    | some _ => diffGone isOnline cur rest
    | none =>
      if isOnline p then
        ⟨id, true, false⟩ :: diffGone isOnline cur rest
      else
        diffGone isOnline cur rest

/-- All change events of one diff cycle, in the order the Go loops append
them: the current-snapshot loop first, then the disappeared loop. -/
def diffChanges (isOnline : String → Bool) (prev cur : Snapshot) :
    List TransitionEvent :=
  diffCurrent isOnline prev cur ++ diffGone isOnline cur prev

/-- The hasUp flag: in the Go loops it is set exactly at the appends of an
offline-to-online event. -/
def hasUp (evs : List TransitionEvent) : Bool :=
  evs.any isUpEvent

/-- The hasDown flag: set exactly at the appends of an online-to-offline
event. -/
def hasDown (evs : List TransitionEvent) : Bool :=
  evs.any isDownEvent

/-- ChangeDirection from watcher: used for the embed colour. -/
inductive ChangeDirection where
  | DirNone
  | DirUp
  | DirDown
  | DirMixed
deriving DecidableEq, Repr

/-- The inline switch computing the direction from the two flags. -/
def direction (hasDownFlag hasUpFlag : Bool) : ChangeDirection :=
  if hasDownFlag && hasUpFlag then .DirMixed
  else if hasDownFlag then .DirDown
  else if hasUpFlag then .DirUp
  else .DirNone

/-- chooseColor from watcher. -/
def chooseColor (dir : ChangeDirection) : Nat :=
  match dir with
  | .DirDown => 0xE74C3C
  | .DirUp => 0x2ECC71
  | .DirMixed => 0xF1C40F
  | .DirNone => 0x95A5A6

/-- The negative phrase pool of pickContent (used when the cycle has a
down-transition). -/
def peerDownPhrases : List String :=
  ["あれれ〜なんかあったみたいだよ〜", "ｸﾞｴ…", "ありゃ？"]

/-- The positive phrase pool of pickContent (used for up-only cycles). -/
def peerUpPhrases : List String :=
  ["お、なんとかなったみたい！", "おかえり〜", "復活！"]

/-- pickContent from watcher; `rand.Intn (len pool)` is the oracle `r`
reduced mod the pool length.  The hasUpFlag argument exists in the Go
signature but is unused there too. -/
def pickContent (hasDownFlag hasUpFlag : Bool) (r : Nat) : String :=
  if hasDownFlag then
    peerDownPhrases.getD (r % peerDownPhrases.length) ""
  else
    peerUpPhrases.getD (r % peerUpPhrases.length) ""

/-- Japanese word for an online/offline state, as in the format strings. -/
def onlineWord (b : Bool) : String :=
  if b then "オンライン" else "オフライン"

/-- One peer change line: 端末 label: from → to. -/
def renderPeerEvent (labelOf : String → String) (e : TransitionEvent) :
    String :=
  "端末 " ++ labelOf e.id ++ ": " ++ onlineWord e.fromOnline ++ " → " ++
    onlineWord e.toOnline

/-- One provider change line: プロバイダ id: from → to. -/
def renderProviderEvent (e : TransitionEvent) : String :=
  "プロバイダ " ++ e.id ++ ": " ++ onlineWord e.fromOnline ++ " → " ++
    onlineWord e.toOnline

/-- Byte-lexicographic string order of Go sort.Strings (UTF-8 byte order
coincides with codepoint order). -/
def charListLe : List Char → List Char → Bool
  | [], _ => true
  | _ :: _, [] => false
  | a :: as, b :: bs =>
    if a.toNat < b.toNat then true
    else if b.toNat < a.toNat then false
    else charListLe as bs

/-- String comparison used to model sort.Strings. -/
def strLe (a b : String) : Bool :=
  charListLe a.data b.data

/-- Insertion step of the sort. -/
def insertSorted (x : String) : List String → List String
  | [] => [x]
  | y :: ys => if strLe x y then x :: y :: ys else y :: insertSorted x ys

/-- sort.Strings(changes): an insertion sort under `strLe`. -/
def sortStrings : List String → List String
  | [] => []
  | x :: xs => insertSorted x (sortStrings xs)

/-- A rendered notification: the plain content line, the embed title, the
bullet-list description and the embed colour. -/
structure Notification where
  content : String
  title : String
  desc : String
  color : Nat
deriving DecidableEq, Repr

/-- diffAndNotifyPeers from watcher.  Returns the snapshot stored back into
w.lastPeer, the list of change events, and the dispatched notification (none
when nothing is sent).  `notifyFails` is the result of the Notify call; the
Go code discards it, so it does not occur in the body. -/
def diffAndNotifyPeers (labelOf : String → String) (r : Nat)
    (notifyFails hasNotifier : Bool) (lastPeer cur : Snapshot) :
    Snapshot × List TransitionEvent × Option Notification :=
  if lastPeer.isEmpty then
    (cur, [], none)
  else
    let evs := diffChanges isPeerOnline lastPeer cur
    let changes := evs.map (renderPeerEvent labelOf)
    if changes.length > 0 && hasNotifier then
      let sorted := sortStrings changes
      let content := pickContent (hasDown evs) (hasUp evs) r
      let desc := "- " ++ String.intercalate "\n- " sorted
      let dir := direction (hasDown evs) (hasUp evs)
      (cur, evs, some ⟨content, "📞 端末のState変更", desc, chooseColor dir⟩)
    else
      (cur, evs, none)

/-- diffAndNotifyProviders from watcher.  Identical structure to the peer
version except: bare ids (no label lookup), a fixed content string instead of
pickContent, and a different embed title. -/
def diffAndNotifyProviders (notifyFails hasNotifier : Bool)
    (lastProv cur : Snapshot) :
    Snapshot × List TransitionEvent × Option Notification :=
  if lastProv.isEmpty then
    (cur, [], none)
  else
    let evs := diffChanges isProviderOnline lastProv cur
    let changes := evs.map renderProviderEvent
    if changes.length > 0 && hasNotifier then
      let sorted := sortStrings changes
      let content := "あれれ〜なんかあったみたいだよ〜"
      let desc := "- " ++ String.intercalate "\n- " sorted
      let dir := direction (hasDown evs) (hasUp evs)
      (cur, evs, some ⟨content, "🌐 プロバイダのステート変更を検知", desc,
        chooseColor dir⟩)
    else
      (cur, evs, none)

/-- GetPeersStatuses applied to the terminal answer of getWithRetry: the
status code it returned and the result of json.Unmarshal on the body (none
models a malformed body).  Non-200 statuses and unmarshal failures are
errors; getWithRetry itself never returns 401/403/5xx (it retries those). -/
def getPeersStatuses (status : Nat)
    (parsed : Option (List (String × String))) :
    Except String (List (String × String)) :=
  if status != 200 then
    .error ("getPeersStatuses " ++ toString status)
  else
    match parsed with
    | none => .error "unmarshal"
    | some data => .ok data

/-- GetRegistry, same shape as GetPeersStatuses. -/
def getRegistry (status : Nat)
    (parsed : Option (List (String × String))) :
    Except String (List (String × String)) :=
  if status != 200 then
    .error ("getRegistry " ++ toString status)
  else
    match parsed with
    | none => .error "unmarshal"
    | some data => .ok data

/-- All external inputs consumed by one checkOnce cycle: the label oracle,
the random oracle, the Notify result, whether a Notifier is configured, and
the terminal status/body answers of the two fetches. -/
structure CycleInput where
  labelOf : String → String
  r : Nat
  notifyFails : Bool
  hasNotifier : Bool
  peerStatus : Nat
  peerBody : Option (List (String × String))
  provStatus : Nat
  provBody : Option (List (String × String))

/-- The observable outcome of one checkOnce cycle. -/
structure CycleResult where
  lastPeer : Snapshot
  lastProv : Snapshot
  peerEvents : List TransitionEvent
  provEvents : List TransitionEvent
  peerNote : Option Notification
  provNote : Option Notification
deriving Repr

/-- checkOnce from watcher: a fetch error for a class is logged and skips
diffing for that class (snapshot kept); a successful fetch feeds
diffAndNotify for that class.  The two classes are handled independently. -/
def checkOnce (i : CycleInput) (lastPeer lastProv : Snapshot) : CycleResult :=
  let p :=
    match getPeersStatuses i.peerStatus i.peerBody with
    | .error _ => (lastPeer, ([] : List TransitionEvent),
        (none : Option Notification))
    | .ok data =>
      diffAndNotifyPeers i.labelOf i.r i.notifyFails i.hasNotifier lastPeer
        (buildSnapshot data)
  let v :=
    match getRegistry i.provStatus i.provBody with
    | .error _ => (lastProv, ([] : List TransitionEvent),
        (none : Option Notification))
    | .ok data =>
      diffAndNotifyProviders i.notifyFails i.hasNotifier lastProv
        (buildSnapshot data)
  ⟨p.1, v.1, p.2.1, v.2.1, p.2.2, v.2.2⟩

/-- Watcher state plus a history flag per class recording whether any
notification has ever been dispatched for that class. -/
structure FullState where
  lastPeer : Snapshot
  lastProv : Snapshot
  peerNotified : Bool
  provNotified : Bool
deriving Repr

/-- One poll cycle acting on the watcher state. -/
def stepState (i : CycleInput) (s : FullState) : FullState :=
  let c := checkOnce i s.lastPeer s.lastProv
  ⟨c.lastPeer, c.lastProv, s.peerNotified || c.peerNote.isSome,
    s.provNotified || c.provNote.isSome⟩

/-- States reachable from the fresh watcher (both snapshots empty, nothing
notified) by any sequence of poll cycles. -/
inductive Reachable : FullState → Prop where
  | init : Reachable ⟨[], [], false, false⟩
  | step (i : CycleInput) (s : FullState) :
      Reachable s → Reachable (stepState i s)

/-- Runs a whole input trace from the fresh watcher. -/
def runTrace (is : List CycleInput) : FullState :=
  is.foldl (fun s i => stepState i s) ⟨[], [], false, false⟩

/-- nextBackoff from the client: double, hard-capped at 60 seconds. -/
def nextBackoff (cur : Nat) : Nat :=
  let mx := 60 * second
  let n := cur * 2
  if n > mx then mx else n

/-- The backoff value held by getWithRetry after k consecutive retryable
failures; the sleep before retry k+1 uses backoffSeq k. -/
def backoffSeq : Nat → Nat
  | 0 => second
  | k + 1 => nextBackoff (backoffSeq k)

/-- jitter from the client: time.Duration(rand.Intn(401)) * time.Millisecond,
with the random draw given by the oracle `r` reduced mod 401. -/
def jitter (r : Nat) : Nat :=
  (r % 401) * millisecond

/-! Helper lemmas about the diff loops. -/

theorem snapLookup_eq_none_of_not_mem (m : Snapshot) (id : String)
    (h : id ∉ m.map Prod.fst) : snapLookup m id = none := by
  induction m with
  | nil => rfl
  | cons q rest ih =>
    obtain ⟨k, v⟩ := q
    simp only [List.map_cons, List.mem_cons, not_or] at h
    have hk : (k == id) = false := by
      rw [beq_eq_false_iff_ne]
      exact fun hkid => h.1 hkid.symm
    simp [snapLookup, hk, ih h.2]

theorem snapLookup_isSome_of_mem (m : Snapshot) (k v : String)
    (h : (k, v) ∈ m) : (snapLookup m k).isSome = true := by
  induction m with
  | nil => simp at h
  | cons q rest ih =>
    obtain ⟨a, b⟩ := q
    rcases List.mem_cons.mp h with h1 | h2
    · obtain ⟨rfl, rfl⟩ := Prod.mk.injEq .. ▸ h1
      simp [snapLookup]
    · by_cases ha : a == k
      · simp [snapLookup, ha]
      · simp only [snapLookup, ha, Bool.false_eq_true, if_false]
        exact ih h2

theorem snapLookup_eq_of_mem_nodup (m : Snapshot) (k v : String)
    (hnd : (m.map Prod.fst).Nodup) (h : (k, v) ∈ m) :
    snapLookup m k = some v := by
  induction m with
  | nil => simp at h
  | cons q rest ih =>
    obtain ⟨a, b⟩ := q
    simp only [List.map_cons, List.nodup_cons] at hnd
    rcases List.mem_cons.mp h with h1 | h2
    · obtain ⟨rfl, rfl⟩ := Prod.mk.injEq .. ▸ h1
      simp [snapLookup]
    · have ha : (a == k) = false := by
        rw [beq_eq_false_iff_ne]
        rintro rfl
        exact hnd.1 (List.mem_map.mpr ⟨(a, v), h2, rfl⟩)
      simp only [snapLookup, ha, Bool.false_eq_true, if_false]
      exact ih hnd.2 h2

theorem filter_diffCurrent_of_lookup_none (isOnline : String → Bool)
    (prev cur : Snapshot) (id : String) (h : snapLookup cur id = none) :
    (diffCurrent isOnline prev cur).filter (fun e => e.id == id) = [] := by
  induction cur with
  | nil => rfl
  | cons q rest ih =>
    obtain ⟨k, s⟩ := q
    simp only [snapLookup] at h
    have hk : (k == id) = false := by
      by_cases hkid : (k == id) = true
      · rw [hkid] at h; simp at h
      · exact Bool.eq_false_iff.mpr hkid
    rw [hk] at h
    simp only [diffCurrent]
    rcases hp : snapLookup prev k with _ | p
    · by_cases hon : isOnline s = true
      · simp [hon, List.filter_cons, hk, ih h]
      · simp only [Bool.not_eq_true] at hon
        simp [hon, ih h]
    · by_cases hne : (isOnline p != isOnline s) = true
      · simp [hne, List.filter_cons, hk, ih h]
      · simp only [Bool.not_eq_true] at hne
        simp [hne, ih h]

theorem filter_diffGone_of_cur_some (isOnline : String → Bool)
    (cur prev : Snapshot) (id cs : String)
    (h : snapLookup cur id = some cs) :
    (diffGone isOnline cur prev).filter (fun e => e.id == id) = [] := by
  induction prev with
  | nil => rfl
  | cons q rest ih =>
    obtain ⟨k, p⟩ := q
    simp only [diffGone]
    by_cases hk : (k == id) = true
    · have : k = id := beq_iff_eq.mp hk
      subst this
      rw [h]
      exact ih
    · have hk' : (k == id) = false := Bool.eq_false_iff.mpr hk
      rcases hc : snapLookup cur k with _ | c
      · by_cases hon : isOnline p = true
        · simp [hon, List.filter_cons, hk', ih]
        · simp only [Bool.not_eq_true] at hon
          simp [hon, ih]
      · exact ih

theorem filter_diffGone_of_prev_none (isOnline : String → Bool)
    (cur prev : Snapshot) (id : String)
    (h : snapLookup prev id = none) :
    (diffGone isOnline cur prev).filter (fun e => e.id == id) = [] := by
  induction prev with
  | nil => rfl
  | cons q rest ih =>
    obtain ⟨k, p⟩ := q
    simp only [snapLookup] at h
    have hk : (k == id) = false := by
      by_cases hkid : (k == id) = true
      · rw [hkid] at h; simp at h
      · exact Bool.eq_false_iff.mpr hkid
    rw [hk] at h
    simp only [diffGone]
    rcases hc : snapLookup cur k with _ | c
    · by_cases hon : isOnline p = true
      · simp [hon, List.filter_cons, hk, ih h]
      · simp only [Bool.not_eq_true] at hon
        simp [hon, ih h]
    · exact ih h

theorem filter_diffCurrent_of_both_some (isOnline : String → Bool)
    (prev cur : Snapshot) (id ps cs : String)
    (hc : (cur.map Prod.fst).Nodup)
    (h1 : snapLookup prev id = some ps) (h2 : snapLookup cur id = some cs) :
    (diffCurrent isOnline prev cur).filter (fun e => e.id == id) =
      (if isOnline ps != isOnline cs then
        [⟨id, isOnline ps, isOnline cs⟩] else []) := by
  induction cur with
  | nil => simp [snapLookup] at h2
  | cons q rest ih =>
    obtain ⟨k, s⟩ := q
    simp only [List.map_cons, List.nodup_cons] at hc
    simp only [snapLookup] at h2
    by_cases hk : (k == id) = true
    · have hkid : k = id := beq_iff_eq.mp hk
      subst hkid
      rw [if_pos hk] at h2
      injection h2 with h2
      subst h2
      have hrest : snapLookup rest k = none :=
        snapLookup_eq_none_of_not_mem rest k hc.1
      have htail := filter_diffCurrent_of_lookup_none isOnline prev rest k hrest
      simp only [diffCurrent, h1]
      by_cases hne : (isOnline ps != isOnline s) = true
      · simp [hne, List.filter_cons, htail]
      · simp only [Bool.not_eq_true] at hne
        simp [hne, htail]
    · have hk' : (k == id) = false := Bool.eq_false_iff.mpr hk
      rw [hk'] at h2
      simp only [Bool.false_eq_true, if_false] at h2
      simp only [diffCurrent]
      rcases hp : snapLookup prev k with _ | p
      · by_cases hon : isOnline s = true
        · simp only [hon, if_true, List.filter_cons, hk']
          simp only [Bool.false_eq_true, if_false]
          exact ih hc.2 h2
        · simp only [Bool.not_eq_true] at hon
          simp only [hon, Bool.false_eq_true, if_false]
          exact ih hc.2 h2
      · by_cases hne : (isOnline p != isOnline s) = true
        · simp only [hne, if_true, List.filter_cons, hk']
          simp only [Bool.false_eq_true, if_false]
          exact ih hc.2 h2
        · simp only [Bool.not_eq_true] at hne
          simp only [hne, Bool.false_eq_true, if_false]
          exact ih hc.2 h2

theorem filter_diffCurrent_of_new (isOnline : String → Bool)
    (prev cur : Snapshot) (id cs : String)
    (hc : (cur.map Prod.fst).Nodup)
    (h1 : snapLookup prev id = none) (h2 : snapLookup cur id = some cs) :
    (diffCurrent isOnline prev cur).filter (fun e => e.id == id) =
      (if isOnline cs then [⟨id, false, true⟩] else []) := by
  induction cur with
  | nil => simp [snapLookup] at h2
  | cons q rest ih =>
    obtain ⟨k, s⟩ := q
    simp only [List.map_cons, List.nodup_cons] at hc
    simp only [snapLookup] at h2
    by_cases hk : (k == id) = true
    · have hkid : k = id := beq_iff_eq.mp hk
      subst hkid
      rw [if_pos hk] at h2
      injection h2 with h2
      subst h2
      have hrest : snapLookup rest k = none :=
        snapLookup_eq_none_of_not_mem rest k hc.1
      have htail := filter_diffCurrent_of_lookup_none isOnline prev rest k hrest
      simp only [diffCurrent, h1]
      by_cases hon : isOnline s = true
      · simp [hon, List.filter_cons, htail]
      · simp only [Bool.not_eq_true] at hon
        simp [hon, htail]
    · have hk' : (k == id) = false := Bool.eq_false_iff.mpr hk
      rw [hk'] at h2
      simp only [Bool.false_eq_true, if_false] at h2
      simp only [diffCurrent]
      rcases hp : snapLookup prev k with _ | p
      · by_cases hon : isOnline s = true
        · simp only [hon, if_true, List.filter_cons, hk']
          simp only [Bool.false_eq_true, if_false]
          exact ih hc.2 h2
        · simp only [Bool.not_eq_true] at hon
          simp only [hon, Bool.false_eq_true, if_false]
          exact ih hc.2 h2
      · by_cases hne : (isOnline p != isOnline s) = true
        · simp only [hne, if_true, List.filter_cons, hk']
          simp only [Bool.false_eq_true, if_false]
          exact ih hc.2 h2
        · simp only [Bool.not_eq_true] at hne
          simp only [hne, Bool.false_eq_true, if_false]
          exact ih hc.2 h2

theorem filter_diffGone_of_gone (isOnline : String → Bool)
    (cur prev : Snapshot) (id ps : String)
    (hp : (prev.map Prod.fst).Nodup)
    (h1 : snapLookup prev id = some ps) (h2 : snapLookup cur id = none) :
    (diffGone isOnline cur prev).filter (fun e => e.id == id) =
      (if isOnline ps then [⟨id, true, false⟩] else []) := by
  induction prev with
  | nil => simp [snapLookup] at h1
  | cons q rest ih =>
    obtain ⟨k, p⟩ := q
    simp only [List.map_cons, List.nodup_cons] at hp
    simp only [snapLookup] at h1
    by_cases hk : (k == id) = true
    · have hkid : k = id := beq_iff_eq.mp hk
      subst hkid
      rw [if_pos hk] at h1
      injection h1 with h1
      subst h1
      have hrest : snapLookup rest k = none :=
        snapLookup_eq_none_of_not_mem rest k hp.1
      have htail := filter_diffGone_of_prev_none isOnline cur rest k hrest
      simp only [diffGone, h2]
      by_cases hon : isOnline p = true
      · simp [hon, List.filter_cons, htail]
      · simp only [Bool.not_eq_true] at hon
        simp [hon, htail]
    · have hk' : (k == id) = false := Bool.eq_false_iff.mpr hk
      rw [hk'] at h1
      simp only [Bool.false_eq_true, if_false] at h1
      simp only [diffGone]
      rcases hc : snapLookup cur k with _ | c
      · by_cases hon : isOnline p = true
        · simp only [hon, if_true, List.filter_cons, hk']
          simp only [Bool.false_eq_true, if_false]
          exact ih hp.2 h1
        · simp only [Bool.not_eq_true] at hon
          simp only [hon, Bool.false_eq_true, if_false]
          exact ih hp.2 h1
      · exact ih hp.2 h1

theorem exists_id_iff_filter_ne_nil (l : List TransitionEvent) (id : String) :
    (∃ e ∈ l, e.id = id) ↔ l.filter (fun e => e.id == id) ≠ [] := by
  constructor
  · rintro ⟨e, he, hid⟩ hnil
    have hmem : e ∈ l.filter (fun e => e.id == id) :=
      List.mem_filter.mpr ⟨he, beq_iff_eq.mpr hid⟩
    rw [hnil] at hmem
    simp at hmem
  · intro h
    rcases List.exists_mem_of_ne_nil _ h with ⟨e, he⟩
    have := List.mem_filter.mp he
    exact ⟨e, this.1, beq_iff_eq.mp this.2⟩

theorem toOnline_not_fromOnline_diffCurrent (isOnline : String → Bool)
    (prev cur : Snapshot) :
    ∀ e ∈ diffCurrent isOnline prev cur, e.toOnline = !e.fromOnline := by
  induction cur with
  | nil => simp [diffCurrent]
  | cons q rest ih =>
    obtain ⟨k, s⟩ := q
    simp only [diffCurrent]
    rcases hp : snapLookup prev k with _ | p
    · by_cases hon : isOnline s = true
      · simp only [hon, if_true]
        intro e he
        rcases List.mem_cons.mp he with rfl | he'
        · rfl
        · exact ih e he'
      · simp only [Bool.not_eq_true] at hon
        simp only [hon, Bool.false_eq_true, if_false]
        exact ih
    · by_cases hne : (isOnline p != isOnline s) = true
      · simp only [hne, if_true]
        intro e he
        rcases List.mem_cons.mp he with rfl | he'
        · have hnep : isOnline p ≠ isOnline s := bne_iff_ne.mp hne
          cases hb : isOnline p <;> cases hb' : isOnline s <;>
            simp_all
        · exact ih e he'
      · simp only [Bool.not_eq_true] at hne
        simp only [hne, Bool.false_eq_true, if_false]
        exact ih

theorem toOnline_not_fromOnline_diffGone (isOnline : String → Bool)
    (cur prev : Snapshot) :
    ∀ e ∈ diffGone isOnline cur prev, e.toOnline = !e.fromOnline := by
  induction prev with
  | nil => simp [diffGone]
  | cons q rest ih =>
    obtain ⟨k, p⟩ := q
    simp only [diffGone]
    rcases hc : snapLookup cur k with _ | c
    · by_cases hon : isOnline p = true
      · simp only [hon, if_true]
        intro e he
        rcases List.mem_cons.mp he with rfl | he'
        · rfl
        · exact ih e he'
      · simp only [Bool.not_eq_true] at hon
        simp only [hon, Bool.false_eq_true, if_false]
        exact ih
    · exact ih

theorem toOnline_not_fromOnline_diffChanges (isOnline : String → Bool)
    (prev cur : Snapshot) :
    ∀ e ∈ diffChanges isOnline prev cur, e.toOnline = !e.fromOnline := by
  intro e he
  rcases List.mem_append.mp he with h | h
  · exact toOnline_not_fromOnline_diffCurrent isOnline prev cur e h
  · exact toOnline_not_fromOnline_diffGone isOnline cur prev e h

theorem direction_cases (evs : List TransitionEvent)
    (h : ∀ e ∈ evs, e.toOnline = !e.fromOnline) :
    (direction (hasDown evs) (hasUp evs) = .DirNone ↔ evs = [])
    ∧ (direction (hasDown evs) (hasUp evs) = .DirDown ↔
        (evs ≠ [] ∧ ∀ e ∈ evs, isDownEvent e = true))
    ∧ (direction (hasDown evs) (hasUp evs) = .DirUp ↔
        (evs ≠ [] ∧ ∀ e ∈ evs, isUpEvent e = true))
    ∧ (direction (hasDown evs) (hasUp evs) = .DirMixed ↔
        ((∃ e ∈ evs, isDownEvent e = true) ∧ (∃ e ∈ evs, isUpEvent e = true))) := by
  have hud : ∀ e ∈ evs, isUpEvent e = !isDownEvent e := by
    intro e he
    have ht := h e he
    simp only [isUpEvent, isDownEvent, ht]
    cases e.fromOnline <;> rfl
  cases hD : hasDown evs <;> cases hU : hasUp evs
  · -- no down, no up: every event would be both not-down and not-up: impossible
    have hnil : evs = [] := by
      rcases evs with _ | ⟨e, rest⟩
      · rfl
      · exfalso
        simp only [hasDown, List.any_cons, Bool.or_eq_false_iff] at hD
        simp only [hasUp, List.any_cons, Bool.or_eq_false_iff] at hU
        have := hud e (List.mem_cons_self e rest)
        rw [hU.1, hD.1] at this
        simp at this
    subst hnil
    refine ⟨by simp [direction, hasDown, hasUp], ?_, ?_, ?_⟩ <;>
      simp [direction, hasDown, hasUp]
  · -- up only
    obtain ⟨eu, heu, hup⟩ := List.any_eq_true.mp hU
    have hallnd : ∀ e ∈ evs, isDownEvent e = false := by
      intro e he
      have := List.any_eq_false.mp hD e he
      simpa using this
    have hne : evs ≠ [] := by
      rintro rfl
      simp at heu
    refine ⟨?_, ?_, ?_, ?_⟩
    · simp only [direction, hD, hU]
      simp [hne]
    · simp only [direction, hD, hU]
      simp only [Bool.false_and, if_false, Bool.false_eq_true, if_true]
      constructor
      · intro hcon
        exact absurd hcon (by simp)
      · rintro ⟨-, hall⟩
        have := hall eu heu
        rw [hallnd eu heu] at this
        simp at this
    · simp only [direction, hD, hU]
      simp only [Bool.false_and, if_false, Bool.false_eq_true, if_true]
      constructor
      · intro _
        refine ⟨hne, fun e he => ?_⟩
        have := hud e he
        rw [hallnd e he] at this
        simpa using this
      · intro _
        trivial
    · simp only [direction, hD, hU]
      simp only [Bool.false_and, if_false, Bool.false_eq_true, if_true]
      constructor
      · intro hcon
        exact absurd hcon (by simp)
      · rintro ⟨⟨ed, hed, hdown⟩, -⟩
        rw [hallnd ed hed] at hdown
        simp at hdown
  · -- down only
    obtain ⟨ed, hed, hdown⟩ := List.any_eq_true.mp hD
    have hallnu : ∀ e ∈ evs, isUpEvent e = false := by
      intro e he
      have := List.any_eq_false.mp hU e he
      simpa using this
    have hne : evs ≠ [] := by
      rintro rfl
      simp at hed
    refine ⟨?_, ?_, ?_, ?_⟩
    · simp only [direction, hD, hU]
      simp [hne]
    · simp only [direction, hD, hU]
      simp only [Bool.and_false, if_false, Bool.false_eq_true, if_true]
      constructor
      · intro _
        refine ⟨hne, fun e he => ?_⟩
        have := hud e he
        rw [hallnu e he] at this
        cases hb : isDownEvent e
        · rw [hb] at this
          simp at this
        · rfl
      · intro _
        trivial
    · simp only [direction, hD, hU]
      simp only [Bool.and_false, if_false, Bool.false_eq_true, if_true]
      constructor
      · intro hcon
        exact absurd hcon (by simp)
      · rintro ⟨-, hall⟩
        have := hall ed hed
        rw [hallnu ed hed] at this
        simp at this
    · simp only [direction, hD, hU]
      simp only [Bool.and_false, if_false, Bool.false_eq_true, if_true]
      constructor
      · intro hcon
        exact absurd hcon (by simp)
      · rintro ⟨-, ⟨eu, heu, hup⟩⟩
        rw [hallnu eu heu] at hup
        simp at hup
  · -- mixed
    obtain ⟨ed, hed, hdown⟩ := List.any_eq_true.mp hD
    obtain ⟨eu, heu, hup⟩ := List.any_eq_true.mp hU
    have hne : evs ≠ [] := by
      rintro rfl
      simp at hed
    refine ⟨?_, ?_, ?_, ?_⟩
    · simp only [direction, hD, hU, Bool.and_self, if_true]
      simp [hne]
    · simp only [direction, hD, hU, Bool.and_self, if_true]
      constructor
      · intro hcon
        exact absurd hcon (by simp)
      · rintro ⟨-, hall⟩
        have h1 := hall eu heu
        have h2 := hud eu heu
        rw [h1] at h2
        rw [h2] at hup
        simp at hup
    · simp only [direction, hD, hU, Bool.and_self, if_true]
      constructor
      · intro hcon
        exact absurd hcon (by simp)
      · rintro ⟨-, hall⟩
        have h1 := hall ed hed
        have h2 := hud ed hed
        rw [h1] at h2
        rw [hdown] at h2
        simp at h2
    · simp only [direction, hD, hU, Bool.and_self, if_true]
      exact ⟨fun _ => ⟨⟨ed, hed, hdown⟩, ⟨eu, heu, hup⟩⟩, fun _ => trivial⟩

/-- C1: for an entity id present in both the previous and current snapshot of
a class, the diff emits a transition event for that id exactly when the
class's online predicate differs between the previous and the current raw
state; both class predicates are case-insensitive string equality with "OK",
so a change between two offline raw states, for instance "UNKNOWN" to
"FAILED", emits no event. -/
theorem transition_event_iff_online_flip (prev cur : Snapshot)
    (id ps cs : String)
    (hc : (cur.map Prod.fst).Nodup)
    (h1 : snapLookup prev id = some ps) (h2 : snapLookup cur id = some cs) :
    ((diffChanges isPeerOnline prev cur).filter (fun e => e.id == id) =
      (if isPeerOnline ps != isPeerOnline cs then
        [⟨id, isPeerOnline ps, isPeerOnline cs⟩] else []))
    ∧ ((∃ e ∈ diffChanges isPeerOnline prev cur, e.id = id) ↔
        isPeerOnline ps ≠ isPeerOnline cs)
    ∧ ((diffChanges isProviderOnline prev cur).filter (fun e => e.id == id) =
      (if isProviderOnline ps != isProviderOnline cs then
        [⟨id, isProviderOnline ps, isProviderOnline cs⟩] else []))
    ∧ ((∃ e ∈ diffChanges isProviderOnline prev cur, e.id = id) ↔
        isProviderOnline ps ≠ isProviderOnline cs)
    ∧ isPeerOnline "UNKNOWN" = false ∧ isPeerOnline "FAILED" = false := by
  have hfp : (diffChanges isPeerOnline prev cur).filter (fun e => e.id == id) =
      (if isPeerOnline ps != isPeerOnline cs then
        [⟨id, isPeerOnline ps, isPeerOnline cs⟩] else []) := by
    rw [diffChanges, List.filter_append,
      filter_diffCurrent_of_both_some isPeerOnline prev cur id ps cs hc h1 h2,
      filter_diffGone_of_cur_some isPeerOnline cur prev id cs h2,
      List.append_nil]
  have hfv : (diffChanges isProviderOnline prev cur).filter
        (fun e => e.id == id) =
      (if isProviderOnline ps != isProviderOnline cs then
        [⟨id, isProviderOnline ps, isProviderOnline cs⟩] else []) := by
    rw [diffChanges, List.filter_append,
      filter_diffCurrent_of_both_some isProviderOnline prev cur id ps cs hc
        h1 h2,
      filter_diffGone_of_cur_some isProviderOnline cur prev id cs h2,
      List.append_nil]
  refine ⟨hfp, ?_, hfv, ?_, by decide, by decide⟩
  · rw [exists_id_iff_filter_ne_nil, hfp]
    by_cases hb : isPeerOnline ps = isPeerOnline cs
    · simp [hb]
    · simp [hb, bne_iff_ne.mpr hb]
  · rw [exists_id_iff_filter_ne_nil, hfv]
    by_cases hb : isProviderOnline ps = isProviderOnline cs
    · simp [hb]
    · simp [hb, bne_iff_ne.mpr hb]

/-- Witness for C1: with previous states a:"OK", b:"UNKNOWN" and current
states a:"UNKNOWN", b:"FAILED", entity a (online to offline) gets exactly one
event and entity b (offline to offline) gets none. -/
theorem transition_event_iff_online_flip_witness :
    ((([("a", "UNKNOWN"), ("b", "FAILED")] : Snapshot).map Prod.fst).Nodup
      ∧ snapLookup [("a", "OK"), ("b", "UNKNOWN")] "a" = some "OK"
      ∧ snapLookup [("a", "UNKNOWN"), ("b", "FAILED")] "a" = some "UNKNOWN")
    ∧ (diffChanges isPeerOnline [("a", "OK"), ("b", "UNKNOWN")]
        [("a", "UNKNOWN"), ("b", "FAILED")]).filter (fun e => e.id == "a") =
      [⟨"a", true, false⟩]
    ∧ (diffChanges isPeerOnline [("a", "OK"), ("b", "UNKNOWN")]
        [("a", "UNKNOWN"), ("b", "FAILED")]).filter (fun e => e.id == "b") =
      [] := by
  refine ⟨⟨by decide, rfl, rfl⟩, ?_, ?_⟩
  · have h := (transition_event_iff_online_flip
      [("a", "OK"), ("b", "UNKNOWN")] [("a", "UNKNOWN"), ("b", "FAILED")]
      "a" "OK" "UNKNOWN" (by decide) rfl rfl).1
    rw [h]
    decide
  · have h := (transition_event_iff_online_flip
      [("a", "OK"), ("b", "UNKNOWN")] [("a", "UNKNOWN"), ("b", "FAILED")]
      "b" "UNKNOWN" "FAILED" (by decide) rfl rfl).1
    rw [h]
    decide

/-- C2: on cold start (empty previous snapshot) both diff-and-notify
functions emit zero events, dispatch nothing and store the current snapshot
as the new baseline. -/
theorem cold_start_seeds_snapshot (labelOf : String → String) (r : Nat)
    (nf hn : Bool) (cur : Snapshot) :
    diffAndNotifyPeers labelOf r nf hn [] cur = (cur, [], none)
    ∧ diffAndNotifyProviders nf hn [] cur = (cur, [], none) :=
  ⟨rfl, rfl⟩

/-- C3: with a non-empty previous snapshot, an id present only in the current
snapshot yields exactly one offline-to-online event when its current state is
online and no event otherwise, and an id present only in the previous
snapshot yields exactly one online-to-offline event when its previous state
was online and no event otherwise.  The non-emptiness hypothesis mirrors the
claim's setting (an empty previous snapshot never reaches the diff loops);
the diff loops themselves satisfy the property unconditionally. -/
theorem appear_disappear_events (isOnline : String → Bool)
    (prev cur : Snapshot) (id s : String) (hne : prev ≠ [])
    (hp : (prev.map Prod.fst).Nodup) (hc : (cur.map Prod.fst).Nodup) :
    (snapLookup prev id = none → snapLookup cur id = some s →
      (diffChanges isOnline prev cur).filter (fun e => e.id == id) =
        (if isOnline s then [⟨id, false, true⟩] else []))
    ∧ (snapLookup prev id = some s → snapLookup cur id = none →
      (diffChanges isOnline prev cur).filter (fun e => e.id == id) =
        (if isOnline s then [⟨id, true, false⟩] else [])) := by
  constructor
  · intro h1 h2
    rw [diffChanges, List.filter_append,
      filter_diffCurrent_of_new isOnline prev cur id s hc h1 h2,
      filter_diffGone_of_prev_none isOnline cur prev id h1,
      List.append_nil]
  · intro h1 h2
    rw [diffChanges, List.filter_append,
      filter_diffCurrent_of_lookup_none isOnline prev cur id h2,
      filter_diffGone_of_gone isOnline cur prev id s hp h1 h2,
      List.nil_append]

/-- Witness for C3: previous x:"OK", current y:"ok"; the new entity y (online,
case-insensitively) gets one up-event, the disappeared online entity x gets
one down-event. -/
theorem appear_disappear_events_witness :
    (([("x", "OK")] : Snapshot) ≠ []
      ∧ snapLookup [("x", "OK")] "y" = none
      ∧ snapLookup [("y", "ok")] "y" = some "ok"
      ∧ snapLookup [("x", "OK")] "x" = some "OK"
      ∧ snapLookup [("y", "ok")] "x" = none)
    ∧ (diffChanges isPeerOnline [("x", "OK")] [("y", "ok")]).filter
        (fun e => e.id == "y") = [⟨"y", false, true⟩]
    ∧ (diffChanges isPeerOnline [("x", "OK")] [("y", "ok")]).filter
        (fun e => e.id == "x") = [⟨"x", true, false⟩] := by
  refine ⟨⟨by decide, rfl, rfl, rfl, rfl⟩, ?_, ?_⟩
  · have h := (appear_disappear_events isPeerOnline [("x", "OK")]
      [("y", "ok")] "y" "ok" (by decide) (by decide) (by decide)).1 rfl rfl
    rw [h]
    decide
  · have h := (appear_disappear_events isPeerOnline [("x", "OK")]
      [("y", "ok")] "x" "OK" (by decide) (by decide) (by decide)).2 rfl rfl
    rw [h]
    decide

/-- C4: the aggregate direction of a diff cycle is DirNone exactly when there
are no events, DirDown exactly when there is at least one event and all are
down-transitions, DirUp exactly when there is at least one event and all are
up-transitions, and DirMixed exactly when both a down-transition and an
up-transition occur, regardless of counts. -/
theorem aggregate_direction_spec (isOnline : String → Bool)
    (prev cur : Snapshot) :
    (direction (hasDown (diffChanges isOnline prev cur))
        (hasUp (diffChanges isOnline prev cur)) = .DirNone ↔
      diffChanges isOnline prev cur = [])
    ∧ (direction (hasDown (diffChanges isOnline prev cur))
        (hasUp (diffChanges isOnline prev cur)) = .DirDown ↔
      (diffChanges isOnline prev cur ≠ [] ∧
        ∀ e ∈ diffChanges isOnline prev cur, isDownEvent e = true))
    ∧ (direction (hasDown (diffChanges isOnline prev cur))
        (hasUp (diffChanges isOnline prev cur)) = .DirUp ↔
      (diffChanges isOnline prev cur ≠ [] ∧
        ∀ e ∈ diffChanges isOnline prev cur, isUpEvent e = true))
    ∧ (direction (hasDown (diffChanges isOnline prev cur))
        (hasUp (diffChanges isOnline prev cur)) = .DirMixed ↔
      ((∃ e ∈ diffChanges isOnline prev cur, isDownEvent e = true) ∧
        (∃ e ∈ diffChanges isOnline prev cur, isUpEvent e = true))) :=
  direction_cases (diffChanges isOnline prev cur)
    (toOnline_not_fromOnline_diffChanges isOnline prev cur)

theorem backoffSeq_closed (k : Nat) :
    backoffSeq k = min (2 ^ k * second) (60 * second) := by
  induction k with
  | zero =>
    simp only [backoffSeq, pow_zero, one_mul, second]
    omega
  | succ k ih =>
    rw [backoffSeq, ih]
    simp only [nextBackoff]
    have ha : 2 ^ (k + 1) * second = 2 ^ k * second * 2 := by ring
    rw [ha]
    split_ifs with h <;> omega

/-- C7: the retry backoff starts at one second; each transport-level or 5xx
failure doubles it through nextBackoff, hard-capped at 60 seconds; the
backoff sequence never exceeds the cap and is non-decreasing, in particular
after 6 consecutive transport failures it is still at most 60 seconds; and
below the cap even the jitter-inclusive per-retry delay is non-decreasing. -/
theorem backoff_policy :
    backoffSeq 0 = second
    ∧ (∀ k, backoffSeq (k + 1) = nextBackoff (backoffSeq k))
    ∧ (∀ k, backoffSeq k ≤ 60 * second)
    ∧ (∀ k, backoffSeq k ≤ backoffSeq (k + 1))
    ∧ backoffSeq 6 ≤ 60 * second
    ∧ (∀ k j j', j ≤ 400 * millisecond → backoffSeq k < 60 * second →
        backoffSeq k + j ≤ backoffSeq (k + 1) + j') := by
  refine ⟨rfl, fun k => rfl, ?_, ?_, ?_, ?_⟩
  · intro k
    rw [backoffSeq_closed]
    exact Nat.min_le_right _ _
  · intro k
    rw [backoffSeq_closed, backoffSeq_closed]
    have hpow : 2 ^ k * second ≤ 2 ^ (k + 1) * second :=
      Nat.mul_le_mul_right second (Nat.pow_le_pow_right (by norm_num)
        (Nat.le_succ k))
    omega
  · rw [backoffSeq_closed]
    exact Nat.min_le_right _ _
  · intro k j j' hj hlt
    rw [backoffSeq_closed] at hlt
    rw [backoffSeq_closed, backoffSeq_closed]
    have h1 : (1 : Nat) ≤ 2 ^ k := Nat.one_le_two_pow
    have hsec : (0 : Nat) < second := by simp [second]
    have hak : 2 ^ k < 60 := by
      have hmin : 2 ^ k * second < 60 * second := by
        rcases Nat.le_total (2 ^ k * second) (60 * second) with hle | hge
        · rwa [Nat.min_eq_left hle] at hlt
        · rw [Nat.min_eq_right hge] at hlt
          omega
      exact Nat.lt_of_mul_lt_mul_right hmin
    have hk6 : k < 6 := by
      by_contra hge
      push_neg at hge
      have h64 : (2 : Nat) ^ 6 ≤ 2 ^ k := Nat.pow_le_pow_right (by norm_num) hge
      norm_num at h64
      omega
    have h32 : 2 ^ k ≤ 32 := by
      have h5 : (2 : Nat) ^ k ≤ 2 ^ 5 := Nat.pow_le_pow_right (by norm_num)
        (by omega)
      norm_num at h5
      omega
    rw [pow_succ]
    simp only [second, millisecond] at hj ⊢
    omega

/-- Witness for C7: with backoff at 4 seconds (two failures) and maximal
jitter, the next delay is still no smaller. -/
theorem backoff_policy_witness :
    (400 * millisecond ≤ 400 * millisecond ∧ backoffSeq 2 < 60 * second)
    ∧ backoffSeq 2 + 400 * millisecond ≤ backoffSeq 3 + 0 :=
  ⟨⟨le_refl _, by decide⟩,
    backoff_policy.2.2.2.2.2 2 (400 * millisecond) 0 (le_refl _) (by decide)⟩

/-- C8 counterexample: rand.Intn(401) can draw 400, so the jitter can equal
exactly 400 milliseconds, refuting the half-open bound of the claim. -/
theorem jitter_strict_bound_cex :
    jitter 400 = 400 * millisecond
    ∧ ¬(jitter 400 < 400 * millisecond)
    ∧ ¬(∀ r : Nat, jitter r < 400 * millisecond) :=
  ⟨by decide, by decide, fun h => absurd (h 400) (by decide)⟩

/-- C8 amended: every jitter value is a whole number of milliseconds between
0 and 400 milliseconds inclusive (the draw is uniform over 0..400). -/
theorem jitter_bound_amended (r : Nat) :
    jitter r ≤ 400 * millisecond := by
  have h : r % 401 ≤ 400 := Nat.le_of_lt_succ (Nat.mod_lt r (by norm_num))
  calc jitter r = (r % 401) * millisecond := rfl
    _ ≤ 400 * millisecond := Nat.mul_le_mul_right millisecond h

theorem diffAndNotifyPeers_fst (labelOf : String → String) (r : Nat)
    (nf hn : Bool) (lastPeer cur : Snapshot) :
    (diffAndNotifyPeers labelOf r nf hn lastPeer cur).1 = cur := by
  simp only [diffAndNotifyPeers]
  split
  · rfl
  · split <;> rfl

theorem diffAndNotifyProviders_fst (nf hn : Bool)
    (lastProv cur : Snapshot) :
    (diffAndNotifyProviders nf hn lastProv cur).1 = cur := by
  simp only [diffAndNotifyProviders]
  split
  · rfl
  · split <;> rfl

theorem diffCurrent_sub_self (isOnline : String → Bool) (cur : Snapshot) :
    ∀ sub : Snapshot, (∀ q ∈ sub, snapLookup cur q.1 = some q.2) →
      diffCurrent isOnline cur sub = [] := by
  intro sub
  induction sub with
  | nil => intro _; rfl
  | cons q rest ih =>
    intro h
    obtain ⟨k, s⟩ := q
    have hk := h (k, s) (List.mem_cons_self _ _)
    simp only at hk
    simp only [diffCurrent, hk]
    have hb : (isOnline s != isOnline s) = false := by simp
    rw [hb]
    simp only [Bool.false_eq_true, if_false]
    exact ih (fun q hq => h q (List.mem_cons_of_mem _ hq))

theorem diffGone_sub_self (isOnline : String → Bool) (cur : Snapshot) :
    ∀ sub : Snapshot, (∀ q ∈ sub, (snapLookup cur q.1).isSome = true) →
      diffGone isOnline cur sub = [] := by
  intro sub
  induction sub with
  | nil => intro _; rfl
  | cons q rest ih =>
    intro h
    obtain ⟨k, p⟩ := q
    have hk := h (k, p) (List.mem_cons_self _ _)
    simp only at hk
    rcases hc : snapLookup cur k with _ | c
    · rw [hc] at hk
      simp at hk
    · simp only [diffGone, hc]
      exact ih (fun q hq => h q (List.mem_cons_of_mem _ hq))

theorem diffChanges_self (isOnline : String → Bool) (cur : Snapshot)
    (hc : (cur.map Prod.fst).Nodup) :
    diffChanges isOnline cur cur = [] := by
  rw [diffChanges,
    diffCurrent_sub_self isOnline cur cur
      (fun q hq => snapLookup_eq_of_mem_nodup cur q.1 q.2 hc hq),
    diffGone_sub_self isOnline cur cur
      (fun q hq => snapLookup_isSome_of_mem cur q.1 q.2 hq)]
  rfl

/-- C10: in a cycle with a non-empty previous snapshot and at least one
transition, a notification is dispatched, its success or failure is
discarded (the whole outcome is independent of the Notify result), the
stored snapshot is still replaced by the current one, and a later cycle
presenting the same current snapshot yields no events, so the cycle's
events are never re-emitted. -/
theorem notify_error_discarded (labelOf : String → String) (r : Nat)
    (lastPeer curP lastProv curV : Snapshot)
    (hlp : lastPeer ≠ []) (hlv : lastProv ≠ [])
    (hep : diffChanges isPeerOnline lastPeer curP ≠ [])
    (hev : diffChanges isProviderOnline lastProv curV ≠ [])
    (hcp : (curP.map Prod.fst).Nodup) (hcv : (curV.map Prod.fst).Nodup) :
    ∀ notifyFails : Bool,
      ((diffAndNotifyPeers labelOf r notifyFails true lastPeer curP).1 = curP
        ∧ diffAndNotifyPeers labelOf r notifyFails true lastPeer curP =
            diffAndNotifyPeers labelOf r false true lastPeer curP
        ∧ (∃ n, (diffAndNotifyPeers labelOf r notifyFails true lastPeer
            curP).2.2 = some n)
        ∧ diffChanges isPeerOnline curP curP = [])
      ∧ ((diffAndNotifyProviders notifyFails true lastProv curV).1 = curV
        ∧ diffAndNotifyProviders notifyFails true lastProv curV =
            diffAndNotifyProviders false true lastProv curV
        ∧ (∃ n, (diffAndNotifyProviders notifyFails true lastProv
            curV).2.2 = some n)
        ∧ diffChanges isProviderOnline curV curV = []) := by
  intro nf
  refine ⟨⟨diffAndNotifyPeers_fst labelOf r nf true lastPeer curP, rfl, ?_,
      diffChanges_self isPeerOnline curP hcp⟩,
    ⟨diffAndNotifyProviders_fst nf true lastProv curV, rfl, ?_,
      diffChanges_self isProviderOnline curV hcv⟩⟩
  · rcases hlpe : lastPeer with _ | ⟨q0, rest0⟩
    · exact absurd hlpe hlp
    · rw [hlpe] at hep
      simp only [diffAndNotifyPeers, List.isEmpty_cons, Bool.false_eq_true,
        if_false]
      have hlen : 0 < ((diffChanges isPeerOnline (q0 :: rest0) curP).map
          (renderPeerEvent labelOf)).length := by
        rw [List.length_map]
        exact List.length_pos.mpr hep
      have hcond : (decide (((diffChanges isPeerOnline (q0 :: rest0)
          curP).map (renderPeerEvent labelOf)).length > 0) && true) = true := by
        simp [hlen]
        exact List.length_pos.mpr hep
      rw [if_pos hcond]
      exact ⟨_, rfl⟩
  · rcases hlve : lastProv with _ | ⟨q0, rest0⟩
    · exact absurd hlve hlv
    · rw [hlve] at hev
      simp only [diffAndNotifyProviders, List.isEmpty_cons, Bool.false_eq_true,
        if_false]
      have hlen : 0 < ((diffChanges isProviderOnline (q0 :: rest0) curV).map
          renderProviderEvent).length := by
        rw [List.length_map]
        exact List.length_pos.mpr hev
      have hcond : (decide (((diffChanges isProviderOnline (q0 :: rest0)
          curV).map renderProviderEvent).length > 0) && true) = true := by
        simp [hlen]
        exact List.length_pos.mpr hev
      rw [if_pos hcond]
      exact ⟨_, rfl⟩

/-- Witness for C10 at a concrete pair of one-entity snapshots. -/
theorem notify_error_discarded_witness :
    (([("p1", "OK")] : Snapshot) ≠ []
      ∧ diffChanges isPeerOnline [("p1", "OK")] [("p1", "OFF")] ≠ []
      ∧ (([("p1", "OFF")] : Snapshot).map Prod.fst).Nodup)
    ∧ (diffAndNotifyPeers (fun s => s) 0 true true [("p1", "OK")]
        [("p1", "OFF")]).1 = [("p1", "OFF")]
    ∧ diffChanges isPeerOnline [("p1", "OFF")] [("p1", "OFF")] = [] := by
  refine ⟨⟨by decide, by decide, by decide⟩, ?_, ?_⟩
  · exact (notify_error_discarded (fun s => s) 0 [("p1", "OK")]
      [("p1", "OFF")] [("t1", "OK")] [("t1", "OFF")] (by decide) (by decide)
      (by decide) (by decide) (by decide) (by decide) true).1.1
  · exact (notify_error_discarded (fun s => s) 0 [("p1", "OK")]
      [("p1", "OFF")] [("t1", "OK")] [("t1", "OFF")] (by decide) (by decide)
      (by decide) (by decide) (by decide) (by decide) true).1.2.2.2

/-- C6: when the fetch for an entity class fails — the terminal status of
getWithRetry is not 200, or the response body fails to parse — checkOnce
leaves that class's snapshot unchanged, computes no events for it and
dispatches no notification for it in that cycle. -/
theorem fetch_error_skips_cycle (i : CycleInput)
    (lastPeer lastProv : Snapshot) :
    (∀ msg, getPeersStatuses i.peerStatus i.peerBody = .error msg →
      (checkOnce i lastPeer lastProv).lastPeer = lastPeer
        ∧ (checkOnce i lastPeer lastProv).peerEvents = []
        ∧ (checkOnce i lastPeer lastProv).peerNote = none)
    ∧ (∀ msg, getRegistry i.provStatus i.provBody = .error msg →
      (checkOnce i lastPeer lastProv).lastProv = lastProv
        ∧ (checkOnce i lastPeer lastProv).provEvents = []
        ∧ (checkOnce i lastPeer lastProv).provNote = none)
    ∧ (∀ (status : Nat) (parsed : Option (List (String × String))),
        status ≠ 200 → ∃ msg, getPeersStatuses status parsed = .error msg)
    ∧ (∀ status : Nat, ∃ msg,
        getPeersStatuses status none = Except.error msg)
    ∧ (∀ (status : Nat) (parsed : Option (List (String × String))),
        status ≠ 200 → ∃ msg, getRegistry status parsed = .error msg)
    ∧ (∀ status : Nat, ∃ msg, getRegistry status none = Except.error msg) := by
  refine ⟨?_, ?_, ?_, ?_, ?_, ?_⟩
  · intro msg h
    refine ⟨?_, ?_, ?_⟩ <;> simp [checkOnce, h]
  · intro msg h
    refine ⟨?_, ?_, ?_⟩ <;> simp [checkOnce, h]
  · intro status parsed hne
    refine ⟨"getPeersStatuses " ++ toString status, ?_⟩
    simp [getPeersStatuses, bne_iff_ne, hne]
  · intro status
    by_cases h200 : status = 200
    · subst h200
      exact ⟨"unmarshal", rfl⟩
    · refine ⟨"getPeersStatuses " ++ toString status, ?_⟩
      simp [getPeersStatuses, bne_iff_ne, h200]
  · intro status parsed hne
    refine ⟨"getRegistry " ++ toString status, ?_⟩
    simp [getRegistry, bne_iff_ne, hne]
  · intro status
    by_cases h200 : status = 200
    · subst h200
      exact ⟨"unmarshal", rfl⟩
    · refine ⟨"getRegistry " ++ toString status, ?_⟩
      simp [getRegistry, bne_iff_ne, h200]

/-- Witness for C6: a 404 peer fetch leaves the peer snapshot and
notification untouched. -/
theorem fetch_error_skips_cycle_witness :
    getPeersStatuses 404 (some []) = Except.error "getPeersStatuses 404"
    ∧ (checkOnce ⟨fun s => s, 0, false, true, 404, some [], 200, none⟩
        [("p1", "OK")] [("t1", "OK")]).lastPeer = [("p1", "OK")]
    ∧ (checkOnce ⟨fun s => s, 0, false, true, 404, some [], 200, none⟩
        [("p1", "OK")] [("t1", "OK")]).peerNote = none := by
  have h := (fetch_error_skips_cycle
    ⟨fun s => s, 0, false, true, 404, some [], 200, none⟩
    [("p1", "OK")] [("t1", "OK")]).1 "getPeersStatuses 404" rfl
  exact ⟨rfl, h.1, h.2.2⟩

theorem insertEntry_ne_nil (m : Snapshot) (k v : String) :
    insertEntry m k v ≠ [] := by
  rw [insertEntry]
  split
  · rename_i hany
    rcases m with _ | ⟨q, rest⟩
    · simp at hany
    · simp
  · simp

theorem foldl_insertEntry_ne_nil (l : List (String × String)) :
    ∀ m : Snapshot, m ≠ [] →
      l.foldl (fun m q => insertEntry m q.1 q.2) m ≠ [] := by
  induction l with
  | nil => exact fun m hm => hm
  | cons q rest ih =>
    intro m hm
    simp only [List.foldl_cons]
    exact ih _ (insertEntry_ne_nil m q.1 q.2)

theorem buildSnapshot_ne_nil (d : List (String × String)) (hd : d ≠ []) :
    buildSnapshot d ≠ [] := by
  rcases d with _ | ⟨q, rest⟩
  · exact absurd rfl hd
  · rw [buildSnapshot]
    simp only [List.foldl_cons]
    exact foldl_insertEntry_ne_nil rest _ (insertEntry_ne_nil [] q.1 q.2)

/-- C5 counterexample: after seeding with one online peer, a successful
fetch returning zero peers dispatches a down-notification and then stores
the empty snapshot, reaching a state whose peer snapshot is empty although
a peer notification has been dispatched; the claimed invariant is false. -/
theorem empty_snapshot_after_notify_cex :
    Reachable ⟨[], [], true, false⟩
    ∧ ¬(∀ s : FullState, Reachable s → s.lastPeer = [] →
        s.peerNotified = false) := by
  have h1 : Reachable (stepState
      ⟨fun s => s, 0, false, true, 200, some [("p1", "OK")], 404, none⟩
      ⟨[], [], false, false⟩) :=
    Reachable.step _ _ Reachable.init
  have h2 : Reachable (stepState
      ⟨fun s => s, 0, false, true, 200, some [], 404, none⟩
      (stepState
        ⟨fun s => s, 0, false, true, 200, some [("p1", "OK")], 404, none⟩
        ⟨[], [], false, false⟩)) :=
    Reachable.step _ _ h1
  have heq : stepState
      ⟨fun s => s, 0, false, true, 200, some [], 404, none⟩
      (stepState
        ⟨fun s => s, 0, false, true, 200, some [("p1", "OK")], 404, none⟩
        ⟨[], [], false, false⟩) = ⟨[], [], true, false⟩ := rfl
  rw [heq] at h2
  refine ⟨h2, fun hall => ?_⟩
  have hcon := hall ⟨[], [], true, false⟩ h2 rfl
  simp at hcon

/-- C5 amended: an empty stored snapshot of a class implies that no
notification has ever been dispatched for that class, provided every
successful fetch of that class so far returned at least one entity; the
proviso is forced because a successful fetch with zero entities empties the
snapshot after possibly notifying. -/
theorem empty_snapshot_no_notify_amended (is : List CycleInput)
    (hp : ∀ i ∈ is, ∀ d, getPeersStatuses i.peerStatus i.peerBody =
      Except.ok d → d ≠ [])
    (hv : ∀ i ∈ is, ∀ d, getRegistry i.provStatus i.provBody =
      Except.ok d → d ≠ []) :
    ((runTrace is).lastPeer = [] → (runTrace is).peerNotified = false)
    ∧ ((runTrace is).lastProv = [] → (runTrace is).provNotified = false) := by
  have main : ∀ (l : List CycleInput) (s : FullState),
      (∀ i ∈ l, ∀ d, getPeersStatuses i.peerStatus i.peerBody =
        Except.ok d → d ≠ []) →
      (∀ i ∈ l, ∀ d, getRegistry i.provStatus i.provBody =
        Except.ok d → d ≠ []) →
      (s.lastPeer = [] → s.peerNotified = false) →
      (s.lastProv = [] → s.provNotified = false) →
      ((l.foldl (fun s i => stepState i s) s).lastPeer = [] →
        (l.foldl (fun s i => stepState i s) s).peerNotified = false)
      ∧ ((l.foldl (fun s i => stepState i s) s).lastProv = [] →
        (l.foldl (fun s i => stepState i s) s).provNotified = false) := by
    intro l
    induction l with
    | nil => exact fun s _ _ h1 h2 => ⟨h1, h2⟩
    | cons i rest ih =>
      intro s hpc hvc h1 h2
      simp only [List.foldl_cons]
      refine ih _ (fun j hj => hpc j (List.mem_cons_of_mem _ hj))
        (fun j hj => hvc j (List.mem_cons_of_mem _ hj)) ?_ ?_
      · intro hnil
        rcases hfp : getPeersStatuses i.peerStatus i.peerBody with msg | d
        · have hlp : (stepState i s).lastPeer = s.lastPeer := by
            simp [stepState, checkOnce, hfp]
          have hnote : (stepState i s).peerNotified = s.peerNotified := by
            simp [stepState, checkOnce, hfp]
          rw [hnote]
          exact h1 (hlp ▸ hnil)
        · exfalso
          have hd : d ≠ [] := hpc i (List.mem_cons_self _ _) d hfp
          have hb : buildSnapshot d ≠ [] := buildSnapshot_ne_nil d hd
          have hlp : (stepState i s).lastPeer = buildSnapshot d := by
            simp [stepState, checkOnce, hfp, diffAndNotifyPeers_fst]
          rw [hlp] at hnil
          exact hb hnil
      · intro hnil
        rcases hfv : getRegistry i.provStatus i.provBody with msg | d
        · have hlv : (stepState i s).lastProv = s.lastProv := by
            simp [stepState, checkOnce, hfv]
          have hnote : (stepState i s).provNotified = s.provNotified := by
            simp [stepState, checkOnce, hfv]
          rw [hnote]
          exact h2 (hlv ▸ hnil)
        · exfalso
          have hd : d ≠ [] := hvc i (List.mem_cons_self _ _) d hfv
          have hb : buildSnapshot d ≠ [] := buildSnapshot_ne_nil d hd
          have hlv : (stepState i s).lastProv = buildSnapshot d := by
            simp [stepState, checkOnce, hfv, diffAndNotifyProviders_fst]
          rw [hlv] at hnil
          exact hb hnil
  exact main is ⟨[], [], false, false⟩ hp hv (fun _ => rfl) (fun _ => rfl)

/-- Witness for the amended C5: on the empty trace the snapshots are empty
and indeed nothing was ever notified. -/
theorem empty_snapshot_no_notify_amended_witness :
    (runTrace []).peerNotified = false
    ∧ (runTrace []).provNotified = false := by
  have h := empty_snapshot_no_notify_amended []
    (fun i hi => absurd hi (List.not_mem_nil i))
    (fun i hi => absurd hi (List.not_mem_nil i))
  exact ⟨h.1 rfl, h.2 rfl⟩

/-- C9 counterexample: a provider cycle containing only an up-transition is
notified with the fixed phrase あれれ〜なんかあったみたいだよ〜, which
belongs to the negative phrase pool, not the positive one; provider content
is not selected by direction. -/
theorem provider_phrase_cex :
    hasDown (diffChanges isProviderOnline [("t1", "OFF")] [("t1", "OK")]) =
      false
    ∧ hasUp (diffChanges isProviderOnline [("t1", "OFF")] [("t1", "OK")]) =
      true
    ∧ (diffAndNotifyProviders false true [("t1", "OFF")] [("t1", "OK")]).2.2 =
      some ⟨"あれれ〜なんかあったみたいだよ〜",
        "🌐 プロバイダのステート変更を検知",
        "- プロバイダ t1: オフライン → オンライン", 0x2ECC71⟩
    ∧ "あれれ〜なんかあったみたいだよ〜" ∉ peerUpPhrases
    ∧ "あれれ〜なんかあったみたいだよ〜" ∈ peerDownPhrases := by
  refine ⟨by decide, by decide, by decide, by decide, by decide⟩

/-- C9 amended: the peer-cycle content is selected by direction via
pickContent — negative pool when the cycle has any down-transition, positive
pool when only up-transitions — while the provider-cycle content is always
the fixed phrase あれれ〜なんかあったみたいだよ〜 regardless of direction. -/
theorem phrase_selection_amended :
    (∀ (hu : Bool) (r : Nat), pickContent true hu r ∈ peerDownPhrases)
    ∧ (∀ (hu : Bool) (r : Nat), pickContent false hu r ∈ peerUpPhrases)
    ∧ (∀ (labelOf : String → String) (r : Nat) (nf hn : Bool)
        (lastPeer cur : Snapshot) (n : Notification),
        (diffAndNotifyPeers labelOf r nf hn lastPeer cur).2.2 = some n →
        n.content = pickContent
          (hasDown (diffChanges isPeerOnline lastPeer cur))
          (hasUp (diffChanges isPeerOnline lastPeer cur)) r)
    ∧ (∀ (nf hn : Bool) (lastProv cur : Snapshot) (n : Notification),
        (diffAndNotifyProviders nf hn lastProv cur).2.2 = some n →
        n.content = "あれれ〜なんかあったみたいだよ〜") := by
  refine ⟨?_, ?_, ?_, ?_⟩
  · intro hu r
    have h : r % 3 = 0 ∨ r % 3 = 1 ∨ r % 3 = 2 := by omega
    rcases h with h | h | h <;>
      simp [pickContent, peerDownPhrases, h]
  · intro hu r
    have h : r % 3 = 0 ∨ r % 3 = 1 ∨ r % 3 = 2 := by omega
    rcases h with h | h | h <;>
      simp [pickContent, peerUpPhrases, h]
  · intro labelOf r nf hn lastPeer cur n h
    rcases lastPeer with _ | ⟨q0, rest0⟩
    · simp [diffAndNotifyPeers] at h
    · simp only [diffAndNotifyPeers, List.isEmpty_cons, Bool.false_eq_true,
        if_false] at h
      split at h
      · dsimp only at h
        injection h with h
        rw [← h]
      · dsimp only at h
        exact Option.noConfusion h
  · intro nf hn lastProv cur n h
    rcases lastProv with _ | ⟨q0, rest0⟩
    · simp [diffAndNotifyProviders] at h
    · simp only [diffAndNotifyProviders, List.isEmpty_cons, Bool.false_eq_true,
        if_false] at h
      split at h
      · dsimp only at h
        injection h with h
        rw [← h]
      · dsimp only at h
        exact Option.noConfusion h

/-- Witness for the amended C9: concrete pool memberships and a concrete
provider cycle notified with the fixed phrase. -/
theorem phrase_selection_amended_witness :
    pickContent true false 5 ∈ peerDownPhrases
    ∧ pickContent false true 7 ∈ peerUpPhrases
    ∧ (⟨"あれれ〜なんかあったみたいだよ〜",
        "🌐 プロバイダのステート変更を検知",
        "- プロバイダ t1: オンライン → オフライン", 0xE74C3C⟩ :
          Notification).content = "あれれ〜なんかあったみたいだよ〜" :=
  ⟨phrase_selection_amended.1 false 5, phrase_selection_amended.2.1 true 7,
    phrase_selection_amended.2.2.2 false true [("t1", "OK")] [("t1", "OFF")]
      _ (by decide)⟩

end Tacnet
